import Mathlib

/-!
Verification of the ROI cron job (`roiTask.js`, `index.js`).

The repository is a daily batch job over investment records.  We shallow-embed
the per-record decision procedure of `runRoiTaskNow` (roiTask.js) and the
per-user body of `runDailyROIIncrease` (index.js, the time-gated variant).
JavaScript numbers are modelled as rationals (`ℚ`); loosely typed stored
fields that the source coerces with `parseFloat` are modelled by `NumField`.
The record store collaborator (Firestore) is modelled per the spec's external
interface: partial field update with plain set, numeric increment and
array-append semantics.
-/

/-- A loosely typed stored numeric field, as it sits in the document store.
`num q` is a stored JS number, `strNum q` a string that `parseFloat` parses to
`q`, `strBad s` a (nonempty) string `parseFloat` cannot parse (yields `NaN`),
`absent` a missing/`undefined`/`null` field. -/
inductive NumField where
  | num (q : ℚ)
  | strNum (q : ℚ)
  | strBad (s : String)
  | absent
deriving DecidableEq

/-- roiTask.js lines 86-97: coerce `plan.daysCompleted` to a number.
A stored number is kept, a parseable string is parsed, anything else
(unparseable string, missing) falls back to `0`. -/
def coerceDays : NumField → ℚ
  | .num q => q
  | .strNum q => q
  | .strBad _ => 0
  | .absent => 0

/-- roiTask.js line 100: `parseFloat(plan.roiPercent || '0')`.
A falsy field (`undefined`, `null`, `0`, empty string) is replaced by `'0'`
before parsing, so `absent` parses to `0`; an unparseable truthy string
yields `NaN`, modelled as `none`. -/
def parseRoiPercent : NumField → Option ℚ
  | .num q => some q
  | .strNum q => some q
  | .strBad _ => none
  | .absent => some 0

/-- roiTask.js line 102: `isNaN(parsedRoiPercent) ? 0 : parsedRoiPercent`. -/
def rateOf (f : NumField) : ℚ := (parseRoiPercent f).getD 0

/-- Store semantics of `FieldValue.increment(1)` applied to the stored field:
adds `1` to a stored number; on a non-numeric or missing field the store
sets the field to the operand `1`. -/
def incr1 : NumField → NumField
  | .num q => .num (q + 1)
  | _ => .num 1

/-- One `payoutLogs` entry `{date, amount, status}` (roiTask.js lines 111-116;
the opaque server timestamp sub-field is not modelled). -/
structure LogEntry where
  date : String
  amount : ℚ
  status : String
deriving DecidableEq

/-- The `activePlan` map of an INVESTMENT document (fields read by the task). -/
structure Plan where
  isActive : Bool
  status : String
  action : Option String
  daysCompleted : NumField
  roiPercent : NumField
  amount : ℚ
deriving DecidableEq

/-- An INVESTMENT document (fields read or written by the task).
`hasActivePlan` is `false` when the stored flag is absent or falsy. -/
structure InvRecord where
  userId : Option String
  hasActivePlan : Bool
  activePlan : Option Plan
  payoutLogs : List LogEntry
deriving DecidableEq

/-- The linked USERS profile document (fields written by the task).
`currentPlanRoiPercentage` is `none` when the source would store `NaN`. -/
structure UserProfile where
  walletBalance : ℚ
  currentPlanDaysCompleted : ℚ
  currentPlanRoiPercentage : Option ℚ
  lastRoiPaymentDate : String
  hasActiveInvestments : Bool
deriving DecidableEq

/-- Result of processing one investment document: the updated document pair,
whether the payout branch ran (`paid`), and whether a `console.warn` was
emitted for this record (`warned`). -/
structure StepResult where
  inv : InvRecord
  prof : UserProfile
  paid : Bool
  warned : Bool
deriving DecidableEq

/-- The document-pair part of a `StepResult`. -/
def stateOf (r : StepResult) : InvRecord × UserProfile := (r.inv, r.prof)

/-- The body of the per-document loop of `runRoiTaskNow`
(roiTask.js lines 54-181), for one investment document and its linked user
profile, with `today` the formatted current calendar date.

Branches, in source order: missing `userId` (line 60) and malformed
`activePlan` (line 73) warn and skip; the activity gate (line 79) skips when
`hasActivePlan` or `plan.isActive` is falsy; `daysCompleted < 7` (line 106)
pays `plan.amount * rate`, increments the stored day counter, appends one
payout-log entry and mirrors the state to the profile, with the
cycle-boundary overrides of lines 134-155; otherwise (line 164) the stale
record is auto-corrected when still flagged active (line 169). -/
def processInvestment (inv : InvRecord) (prof : UserProfile) (today : String) :
    StepResult :=
  match inv.userId with
  | none => ⟨inv, prof, false, true⟩
  | some _ =>
    match inv.activePlan with
    | none => ⟨inv, prof, false, true⟩
    | some plan =>
      if !inv.hasActivePlan || !plan.isActive then
        ⟨inv, prof, false, false⟩
      else
        let d := coerceDays plan.daysCompleted
        let pr := parseRoiPercent plan.roiPercent
        let roiAmount := plan.amount * pr.getD 0
        if d < 7 then
          let newDays := d + 1
          let newLogs := inv.payoutLogs ++ [⟨today, roiAmount, "paid"⟩]
          if newDays ≥ 7 then
            if plan.action = some "restart" then
              ⟨{ inv with
                  activePlan := some { plan with
                    daysCompleted := .num 0, status := "active",
                    isActive := true, action := some "active" },
                  payoutLogs := newLogs },
               { prof with
                  walletBalance := prof.walletBalance + roiAmount,
                  currentPlanDaysCompleted := 0,
                  currentPlanRoiPercentage := pr,
                  lastRoiPaymentDate := today,
                  hasActiveInvestments := true },
               true, false⟩
            else
              ⟨{ inv with
                  hasActivePlan := false,
                  activePlan := some { plan with
                    daysCompleted := incr1 plan.daysCompleted,
                    isActive := false, status := "completed" },
                  payoutLogs := newLogs },
               { prof with
                  walletBalance := prof.walletBalance + roiAmount,
                  currentPlanDaysCompleted := newDays,
                  currentPlanRoiPercentage := pr,
                  lastRoiPaymentDate := today,
                  hasActiveInvestments := false },
               true, false⟩
          else
            ⟨{ inv with
                activePlan := some { plan with
                  daysCompleted := incr1 plan.daysCompleted },
                payoutLogs := newLogs },
             { prof with
                walletBalance := prof.walletBalance + roiAmount,
                currentPlanDaysCompleted := newDays,
                currentPlanRoiPercentage := pr,
                lastRoiPaymentDate := today,
                hasActiveInvestments := true },
             true, false⟩
        else
          if inv.hasActivePlan || plan.isActive then
            ⟨{ inv with
                hasActivePlan := false,
                activePlan := some { plan with
                  isActive := false, status := "completed" } },
             { prof with
                hasActiveInvestments := false,
                currentPlanDaysCompleted := d },
             false, false⟩
          else
            ⟨inv, prof, false, false⟩

/-- Iterated runs of the processor over a single record, one per date in the
list (models invoking `runRoiTaskNow` on successive days for one record). -/
def runSeq (s : InvRecord × UserProfile) : List String → InvRecord × UserProfile
  | [] => s
  | t :: ts => runSeq (stateOf (processInvestment s.1 s.2 t)) ts

/-- The number of payouts applied over a sequence of runs on one record. -/
def paidCount (s : InvRecord × UserProfile) : List String → ℕ
  | [] => 0
  | t :: ts =>
      (if (processInvestment s.1 s.2 t).paid then 1 else 0) +
        paidCount (stateOf (processInvestment s.1 s.2 t)) ts

/-- One whole run of `runRoiTaskNow` (roiTask.js lines 48-188) over the
fetched records, each paired with a flag saying whether persisting that
record's updates throws.  The single `try`/`catch` wraps the entire loop:
a thrown persistence error propagates to the top-level `catch` (line 185),
which logs and returns, so the remaining records are left unprocessed. -/
def runRoiTaskNow (today : String) :
    List ((InvRecord × UserProfile) × Bool) → List (InvRecord × UserProfile)
  | [] => []
  | (s, persistThrows) :: rest =>
      if persistThrows then s :: rest.map Prod.fst
      else stateOf (processInvestment s.1 s.2 today) :: runRoiTaskNow today rest

/-- An `investmentPlans` document in the time-gated variant (index.js).
`dailyROI` is `none` when the field is missing or not `typeof 'number'`
(line 98). -/
structure GPlan where
  dailyROI : Option ℚ
deriving DecidableEq

/-- A `users` document in the time-gated variant (index.js lines 74-83).
Timestamps are in milliseconds since the epoch; `none` models a missing
`lastROIUpdateDate` / `roiStartDate`. -/
structure GUser where
  earningStatus : String
  initialInvestmentAmount : ℚ
  investmentPlanId : Option String
  currentROI : ℚ
  currentROIValue : ℚ
  roiIncreaseDayCount : ℚ
  lastROIUpdateDate : Option ℤ
  roiStartDate : Option ℤ
deriving DecidableEq

/-- Model of `parseFloat(x.toFixed(2))` (index.js lines 160-161): round to
two decimal places, ties toward positive infinity. -/
def roundTo2 (q : ℚ) : ℚ := (round (q * 100) : ℚ) / 100

/-- The constant `ONE_DAY_IN_MS` (index.js line 117). -/
def oneDayMs : ℤ := 24 * 60 * 60 * 1000

/-- The time-gate threshold `ONE_DAY_IN_MS - 5 * 60 * 1000`
(index.js line 122). -/
def gateMs : ℤ := oneDayMs - 5 * 60 * 1000

/-- The per-user body of `runDailyROIIncrease` (index.js lines 73-175), for
one user document at time `now` (ms).  The `earningStatus == 'active'` query
filter (line 58) is modelled as the first guard; a user the query does not
return is untouched by the run.

Guards, in source order: non-positive investment amount (line 86), missing
plan id (line 91), plan missing or non-numeric `dailyROI` (line 98), the
time gate against `lastROIUpdateDate || roiStartDate` (lines 114-131), the
already-completed-cycle correction (line 134).  The accrual step (lines
145-173) adds `dailyROI` to `currentROI`, clamps it to `7 * dailyROI`,
persists both percentage fields rounded to two decimals, increments the day
counter, stamps `lastROIUpdateDate := now` and completes the cycle when the
counter reaches 7. -/
def dailyROIStep (plans : String → Option GPlan) (u : GUser) (now : ℤ) :
    GUser :=
  if u.earningStatus ≠ "active" then u
  else if u.initialInvestmentAmount ≤ 0 then u
  else
    match u.investmentPlanId with
    | none => u
    | some pid =>
      match (plans pid).bind GPlan.dailyROI with
      | none => u
      | some dailyROI =>
        match u.lastROIUpdateDate.orElse (fun _ => u.roiStartDate) with
        | none => u
        | some lastT =>
          if now - lastT < gateMs then u
          else if u.roiIncreaseDayCount ≥ 7 then
            { u with earningStatus := "completed" }
          else
            let c1 := u.currentROI + dailyROI
            let maxC := 7 * dailyROI
            let c2 := if c1 > maxC then maxC else c1
            let newCount := u.roiIncreaseDayCount + 1
            { u with
              currentROI := roundTo2 c2,
              currentROIValue :=
                roundTo2 (u.initialInvestmentAmount * (c2 / 100)),
              roiIncreaseDayCount := newCount,
              lastROIUpdateDate := some now,
              earningStatus :=
                if newCount ≥ 7 then "completed" else u.earningStatus }

/-! Concrete documents used to instantiate the theorems below. -/

/-- A baseline eligible plan: active, rate 0.04 (4%/day as a fraction),
principal 1000, no `action`, zero days completed. -/
def basePlan : Plan :=
  { isActive := true, status := "active", action := none,
    daysCompleted := .num 0, roiPercent := .num (4/100), amount := 1000 }

/-- A baseline user profile. -/
def baseProf : UserProfile :=
  { walletBalance := 0, currentPlanDaysCompleted := 0,
    currentPlanRoiPercentage := none, lastRoiPaymentDate := "",
    hasActiveInvestments := true }

/-- A baseline eligible investment document holding `basePlan`. -/
def baseInv : InvRecord :=
  { userId := some "u1", hasActivePlan := true, activePlan := some basePlan,
    payoutLogs := [] }

/-- Plan at the cycle boundary: six days completed. -/
def planD6 : Plan := { basePlan with daysCompleted := .num 6 }

/-- Investment document holding `planD6`. -/
def invD6 : InvRecord := { baseInv with activePlan := some planD6 }

/-- Stale plan: eight days completed, nested flag still active. -/
def planD8 : Plan := { basePlan with daysCompleted := .num 8 }

/-- Investment document holding `planD8`, both activity flags set. -/
def invD8 : InvRecord := { baseInv with activePlan := some planD8 }

/-- Stale document where only the nested `isActive` flag is set: the
top-level `hasActivePlan` is false. -/
def invD8half : InvRecord :=
  { userId := some "u1", hasActivePlan := false, activePlan := some planD8,
    payoutLogs := [] }

/-- Plan whose exact payout `10 × 0.0351 = 0.351` has three decimals. -/
def planFrac : Plan :=
  { basePlan with roiPercent := .num (351/10000), amount := 10 }

/-- Investment document holding `planFrac`. -/
def invFrac : InvRecord := { baseInv with activePlan := some planFrac }

/-- Plan whose stored rate is the unparseable string `"not-a-number"`. -/
def planBadRate : Plan :=
  { basePlan with roiPercent := .strBad "not-a-number" }

/-- Investment document holding `planBadRate`. -/
def invBadRate : InvRecord := { baseInv with activePlan := some planBadRate }

/-- Plan with a fractional stored day counter `6.5`. -/
def planDHalf : Plan := { basePlan with daysCompleted := .num (13/2) }

/-- Investment document holding `planDHalf`. -/
def invDHalf : InvRecord := { baseInv with activePlan := some planDHalf }

/-- Plan with the nested active flag off. -/
def planOff : Plan := { basePlan with isActive := false }

/-- Investment document holding `planOff`. -/
def invOff : InvRecord := { baseInv with activePlan := some planOff }

/-- Time-gated variant: a catalog with one plan paying 4 points per day. -/
def plansFour : String → Option GPlan :=
  fun s => if s = "p" then some ⟨some 4⟩ else none

/-- Time-gated variant: a catalog whose plan pays 0.001 points per day, so
the 7-day cap `0.007` has three decimal places. -/
def plansSmall : String → Option GPlan :=
  fun s => if s = "p" then some ⟨some (1/1000)⟩ else none

/-- A baseline eligible user of the time-gated variant, last updated at
epoch time 0. -/
def baseGUser : GUser :=
  { earningStatus := "active", initialInvestmentAmount := 100,
    investmentPlanId := some "p", currentROI := 0, currentROIValue := 0,
    roiIncreaseDayCount := 0, lastROIUpdateDate := some 0, roiStartDate := none }

/-- User whose stored cumulative ROI (100) already exceeds any 7-day cap of
the catalogs above. -/
def gUserBig : GUser :=
  { baseGUser with currentROI := 100, roiIncreaseDayCount := 3 }

/-- User with a mid-cycle day count and a stored cumulative ROI of 1. -/
def gUserOver : GUser :=
  { baseGUser with currentROI := 1, roiIncreaseDayCount := 3 }

/-! Helper lemmas shared by several claim proofs. -/

/-- A record failing the activity gate (roiTask.js line 79) is returned
unchanged, unpaid and unwarned. -/
theorem processInvestment_skip (inv : InvRecord) (prof : UserProfile)
    (today u : String) (p : Plan)
    (h1 : inv.userId = some u) (h2 : inv.activePlan = some p)
    (h3 : inv.hasActivePlan = false ∨ p.isActive = false) :
    processInvestment inv prof today = ⟨inv, prof, false, false⟩ := by
  rcases h3 with h | h <;> simp [processInvestment, h1, h2, h]

/-! Claim theorems. -/

/-- Claim C9: a record that fails the activity gate (top-level
`hasActivePlan` falsy or `plan.isActive` falsy) is skipped with no mutation:
the documents are returned unchanged, no payout is applied and no payout-log
entry is appended. -/
theorem roi_inactive_skip (inv : InvRecord) (prof : UserProfile)
    (today u : String) (p : Plan)
    (h1 : inv.userId = some u) (h2 : inv.activePlan = some p)
    (h3 : inv.hasActivePlan = false ∨ p.isActive = false) :
    processInvestment inv prof today = ⟨inv, prof, false, false⟩ :=
  processInvestment_skip inv prof today u p h1 h2 h3

/-- Witness for `roi_inactive_skip` at the concrete inactive record
`invOff` (nested `isActive = false`). -/
theorem roi_inactive_skip_witness :
    invOff.userId = some "u1" ∧ invOff.activePlan = some planOff ∧
    planOff.isActive = false ∧
    processInvestment invOff baseProf "2026-01-01" =
      ⟨invOff, baseProf, false, false⟩ :=
  ⟨rfl, rfl, rfl,
    roi_inactive_skip invOff baseProf "2026-01-01" "u1" planOff rfl rfl
      (Or.inr rfl)⟩

/-- Claim C1: a processed record with six days completed transitions by its
`action` field alone: without `action = "restart"` the plan ends at seven
days, inactive, status `completed`; with it the plan resets to zero days,
active, status `active`.  In neither case is the plan left at seven days
while still active. -/
theorem roi_cycle_boundary (inv : InvRecord) (prof : UserProfile)
    (today u : String) (p : Plan)
    (h1 : inv.userId = some u) (h2 : inv.activePlan = some p)
    (h3 : inv.hasActivePlan = true) (h4 : p.isActive = true)
    (h5 : p.daysCompleted = NumField.num 6) :
    ∃ p', (processInvestment inv prof today).inv.activePlan = some p' ∧
      (if p.action = some "restart" then
        p'.daysCompleted = NumField.num 0 ∧ p'.isActive = true ∧
          p'.status = "active"
      else
        p'.daysCompleted = NumField.num 7 ∧ p'.isActive = false ∧
          p'.status = "completed") ∧
      ¬(p'.daysCompleted = NumField.num 7 ∧ p'.isActive = true) := by
  by_cases ha : p.action = some "restart"
  · refine ⟨{ p with daysCompleted := .num 0, status := "active", isActive := true, action := some "active" }, ?_, ?_, ?_⟩
    · norm_num [processInvestment, h1, h2, h3, h4, h5, coerceDays, ha]
    · simp [ha]
    · norm_num
  · refine ⟨{ p with daysCompleted := .num 7, isActive := false, status := "completed" }, ?_, ?_, ?_⟩
    · norm_num [processInvestment, h1, h2, h3, h4, h5, coerceDays, incr1, ha]
    · simp [ha]
    · simp

/-- Witness for `roi_cycle_boundary` at the concrete boundary record
`invD6` (six days completed, no `action`). -/
theorem roi_cycle_boundary_witness :
    invD6.userId = some "u1" ∧ invD6.activePlan = some planD6 ∧
    invD6.hasActivePlan = true ∧ planD6.isActive = true ∧
    planD6.daysCompleted = NumField.num 6 ∧
    (∃ p', (processInvestment invD6 baseProf "2026-01-01").inv.activePlan
        = some p' ∧
      (if planD6.action = some "restart" then
        p'.daysCompleted = NumField.num 0 ∧ p'.isActive = true ∧
          p'.status = "active"
      else
        p'.daysCompleted = NumField.num 7 ∧ p'.isActive = false ∧
          p'.status = "completed") ∧
      ¬(p'.daysCompleted = NumField.num 7 ∧ p'.isActive = true)) :=
  ⟨rfl, rfl, rfl, rfl, rfl,
    roi_cycle_boundary invD6 baseProf "2026-01-01" "u1" planD6
      rfl rfl rfl rfl rfl⟩

/-- Claim C2 (amended): a record observed with BOTH activity flags set
(top-level `hasActivePlan` and `plan.isActive`) and coerced
`daysCompleted ≥ 7` is auto-corrected in one pass: the plan becomes
inactive with status `completed`, the top-level flag is cleared, and no
payout is computed (no log entry, wallet unchanged). -/
theorem roi_autocorrect_gated (inv : InvRecord) (prof : UserProfile)
    (today u : String) (p : Plan)
    (h1 : inv.userId = some u) (h2 : inv.activePlan = some p)
    (h3 : inv.hasActivePlan = true) (h4 : p.isActive = true)
    (h5 : 7 ≤ coerceDays p.daysCompleted) :
    (processInvestment inv prof today).inv.activePlan =
      some { p with isActive := false, status := "completed" } ∧
    (processInvestment inv prof today).inv.hasActivePlan = false ∧
    (processInvestment inv prof today).paid = false ∧
    (processInvestment inv prof today).inv.payoutLogs = inv.payoutLogs ∧
    (processInvestment inv prof today).prof.walletBalance =
      prof.walletBalance ∧
    (processInvestment inv prof today).prof.hasActiveInvestments = false := by
  have hlt : ¬ coerceDays p.daysCompleted < 7 := not_lt.2 h5
  simp [processInvestment, h1, h2, h3, h4, hlt]

/-- Witness for `roi_autocorrect_gated` at the concrete stale record
`invD8` (eight days completed, both flags set). -/
theorem roi_autocorrect_gated_witness :
    invD8.userId = some "u1" ∧ invD8.activePlan = some planD8 ∧
    invD8.hasActivePlan = true ∧ planD8.isActive = true ∧
    7 ≤ coerceDays planD8.daysCompleted ∧
    (processInvestment invD8 baseProf "2026-01-01").inv.activePlan =
      some { planD8 with isActive := false, status := "completed" } :=
  ⟨rfl, rfl, rfl, rfl, by norm_num [planD8, basePlan, coerceDays],
    (roi_autocorrect_gated invD8 baseProf "2026-01-01" "u1" planD8
      rfl rfl rfl rfl (by norm_num [planD8, basePlan, coerceDays])).1⟩

/-- Counterexample to claim C2 as stated: `invD8half` has
`daysCompleted = 8` and its plan is still flagged active
(`plan.isActive = true`), but since the top-level `hasActivePlan` is false
the activity gate (roiTask.js line 79) skips it before the correction branch
is reached: after one pass the plan is unchanged, still active and not
`completed`, contradicting the claim that any record with an active flag set
is corrected. -/
theorem roi_autocorrect_counterexample :
    planD8.isActive = true ∧ 7 ≤ coerceDays planD8.daysCompleted ∧
    invD8half.hasActivePlan = false ∧
    processInvestment invD8half baseProf "2026-01-01" =
      ⟨invD8half, baseProf, false, false⟩ ∧
    (processInvestment invD8half baseProf "2026-01-01").inv.activePlan =
      some planD8 ∧ planD8.status ≠ "completed" := by
  refine ⟨rfl, by norm_num [planD8, basePlan, coerceDays], rfl, ?_, ?_, ?_⟩
  · simp [processInvestment, invD8half]
  · simp [processInvestment, invD8half]
  · simp [planD8, basePlan]

/-- Claim C3 (amended): one payout step on an eligible record with principal
`P` and coerced per-day rate `r` adds exactly `P × r` — the unrounded
product — to the wallet balance and appends exactly one payout-log entry
with that amount, status `paid`, and `today` as its date.  (The source
applies no 2-decimal rounding in this variant.) -/
theorem roi_payout_exact (inv : InvRecord) (prof : UserProfile)
    (today u : String) (p : Plan)
    (h1 : inv.userId = some u) (h2 : inv.activePlan = some p)
    (h3 : inv.hasActivePlan = true) (h4 : p.isActive = true)
    (h5 : coerceDays p.daysCompleted < 7) :
    (processInvestment inv prof today).prof.walletBalance =
      prof.walletBalance + p.amount * rateOf p.roiPercent ∧
    (processInvestment inv prof today).inv.payoutLogs =
      inv.payoutLogs ++ [⟨today, p.amount * rateOf p.roiPercent, "paid"⟩] ∧
    (processInvestment inv prof today).paid = true ∧
    (processInvestment inv prof today).prof.lastRoiPaymentDate = today := by
  simp only [processInvestment, h1, h2, h3, h4, Bool.not_true, Bool.or_self,
    Bool.false_eq_true, if_false, if_pos h5]
  by_cases hb : coerceDays p.daysCompleted + 1 ≥ 7
  · by_cases ha : p.action = some "restart" <;>
      simp [hb, ha, rateOf]
  · simp [hb, rateOf]

/-- Witness for `roi_payout_exact` at the concrete eligible record
`baseInv` (principal 1000, rate 0.04): the wallet gains exactly 40. -/
theorem roi_payout_exact_witness :
    baseInv.userId = some "u1" ∧ baseInv.activePlan = some basePlan ∧
    baseInv.hasActivePlan = true ∧ basePlan.isActive = true ∧
    coerceDays basePlan.daysCompleted < 7 ∧
    (processInvestment baseInv baseProf "2026-01-01").prof.walletBalance =
      baseProf.walletBalance + basePlan.amount * rateOf basePlan.roiPercent :=
  ⟨rfl, rfl, rfl, rfl, by norm_num [basePlan, coerceDays],
    (roi_payout_exact baseInv baseProf "2026-01-01" "u1" basePlan
      rfl rfl rfl rfl (by norm_num [basePlan, coerceDays])).1⟩

/-- Counterexample to claim C3 as stated: for `invFrac` (principal 10, rate
0.0351) the exact product is `0.351`, whose 2-decimal rounding is `0.35`.
The pass adds the unrounded `0.351` to the wallet, so the balance does NOT
increase by `round(P × r, 2)` and the log entry's amount is not the rounded
value. -/
theorem roi_payout_rounding_counterexample :
    (processInvestment invFrac baseProf "2026-01-01").prof.walletBalance =
      baseProf.walletBalance + 351/1000 ∧
    roundTo2 (planFrac.amount * rateOf planFrac.roiPercent) = 35/100 ∧
    (processInvestment invFrac baseProf "2026-01-01").prof.walletBalance ≠
      baseProf.walletBalance + roundTo2 (planFrac.amount * rateOf planFrac.roiPercent) := by
  refine ⟨?_, ?_, ?_⟩
  · norm_num [processInvestment, invFrac, baseInv, planFrac, basePlan,
      baseProf, coerceDays, parseRoiPercent]
  · norm_num [planFrac, basePlan, rateOf, parseRoiPercent, roundTo2, round_eq]
  · norm_num [processInvestment, invFrac, baseInv, planFrac, basePlan,
      baseProf, coerceDays, parseRoiPercent, rateOf, roundTo2, round_eq]

/-- Claim C4 (amended): every eligible record with coerced
`daysCompleted < 7` whose stored rate is an unparseable string gets a payout
of exactly 0: the wallet is unchanged, one payout-log entry with amount 0 is
appended, and NO warning is logged for the unparseable rate; the run
continues normally.  The day counter still advances by exactly 1 (on the
plan and on the profile mirror), except that a `restart` plan completing its
cycle on this pass resets it to 0, per the cycle-boundary rule of C1. -/
theorem roi_unparseable_rate (inv : InvRecord) (prof : UserProfile)
    (today u s : String) (p : Plan) (q : ℚ)
    (h1 : inv.userId = some u) (h2 : inv.activePlan = some p)
    (h3 : inv.hasActivePlan = true) (h4 : p.isActive = true)
    (h5 : p.roiPercent = NumField.strBad s)
    (h6 : p.daysCompleted = NumField.num q) (h7 : q < 7) :
    (processInvestment inv prof today).paid = true ∧
    (processInvestment inv prof today).warned = false ∧
    (processInvestment inv prof today).prof.walletBalance =
      prof.walletBalance ∧
    (processInvestment inv prof today).inv.payoutLogs =
      inv.payoutLogs ++ [⟨today, 0, "paid"⟩] ∧
    ∃ p', (processInvestment inv prof today).inv.activePlan = some p' ∧
      (if 7 ≤ q + 1 ∧ p.action = some "restart" then
        p'.daysCompleted = NumField.num 0 ∧
          (processInvestment inv prof today).prof.currentPlanDaysCompleted = 0
      else
        p'.daysCompleted = NumField.num (q + 1) ∧
          (processInvestment inv prof today).prof.currentPlanDaysCompleted =
            q + 1) := by
  by_cases hb : 7 ≤ q + 1
  · by_cases hr : p.action = some "restart"
    · refine ⟨?_, ?_, ?_, ?_, ⟨{ p with daysCompleted := .num 0, status := "active", isActive := true, action := some "active" }, ?_, ?_⟩⟩ <;>
        simp [processInvestment, h1, h2, h3, h4, h5, h6, h7, hb, hr,
          coerceDays, parseRoiPercent, incr1]
    · refine ⟨?_, ?_, ?_, ?_, ⟨{ p with daysCompleted := .num (q + 1), isActive := false, status := "completed" }, ?_, ?_⟩⟩ <;>
        simp [processInvestment, h1, h2, h3, h4, h5, h6, h7, hb, hr,
          coerceDays, parseRoiPercent, incr1]
  · refine ⟨?_, ?_, ?_, ?_, ⟨{ p with daysCompleted := .num (q + 1) }, ?_, ?_⟩⟩ <;>
      simp [processInvestment, h1, h2, h3, h4, h5, h6, h7, hb, coerceDays,
        parseRoiPercent, incr1]

/-- Witness for `roi_unparseable_rate` at the concrete record `invBadRate`
(rate stored as the string `"not-a-number"`, zero days completed). -/
theorem roi_unparseable_rate_witness :
    invBadRate.userId = some "u1" ∧
    invBadRate.activePlan = some planBadRate ∧
    invBadRate.hasActivePlan = true ∧ planBadRate.isActive = true ∧
    planBadRate.roiPercent = NumField.strBad "not-a-number" ∧
    planBadRate.daysCompleted = NumField.num 0 ∧ (0 : ℚ) < 7 ∧
    ((processInvestment invBadRate baseProf "2026-01-01").paid = true ∧
     (processInvestment invBadRate baseProf "2026-01-01").warned = false ∧
     (processInvestment invBadRate baseProf "2026-01-01").prof.walletBalance =
       baseProf.walletBalance ∧
     (processInvestment invBadRate baseProf "2026-01-01").inv.payoutLogs =
       invBadRate.payoutLogs ++ [⟨"2026-01-01", 0, "paid"⟩] ∧
     ∃ p', (processInvestment invBadRate baseProf "2026-01-01").inv.activePlan
         = some p' ∧
       (if 7 ≤ (0 : ℚ) + 1 ∧ planBadRate.action = some "restart" then
         p'.daysCompleted = NumField.num 0 ∧
           (processInvestment invBadRate baseProf "2026-01-01").prof.currentPlanDaysCompleted = 0
       else
         p'.daysCompleted = NumField.num ((0 : ℚ) + 1) ∧
           (processInvestment invBadRate baseProf "2026-01-01").prof.currentPlanDaysCompleted =
             (0 : ℚ) + 1)) :=
  ⟨rfl, rfl, rfl, rfl, rfl, rfl, by norm_num,
    roi_unparseable_rate invBadRate baseProf "2026-01-01" "u1"
      "not-a-number" planBadRate 0 rfl rfl rfl rfl rfl rfl (by norm_num)⟩

/-- Counterexample to claim C4 as stated: processing `invBadRate`
(rate `"not-a-number"`) computes a zero payout and advances the day counter,
but emits NO warning — no `console.warn` call exists on this path
(roiTask.js lines 99-122) — contradicting the claim that a warning is
logged. -/
theorem roi_unparseable_rate_counterexample :
    (processInvestment invBadRate baseProf "2026-01-01").paid = true ∧
    (processInvestment invBadRate baseProf "2026-01-01").warned = false := by
  constructor <;>
    norm_num [processInvestment, invBadRate, baseInv, planBadRate, basePlan,
      coerceDays, parseRoiPercent]

/-- Claim C5 (the code violates it): a thrown error while persisting one
record's updates aborts the whole run.  In the run below the first record's
persistence throws; the single `try`/`catch` of `runRoiTaskNow` catches it
at top level, so the second record — an eligible active record that one
processing step would change (its wallet would gain 40) — is left
completely unprocessed. -/
theorem roi_run_abort_bug :
    runRoiTaskNow "2026-01-01"
        [((invD6, baseProf), true), ((baseInv, baseProf), false)] =
      [(invD6, baseProf), (baseInv, baseProf)] ∧
    (processInvestment baseInv baseProf "2026-01-01").prof.walletBalance =
      40 ∧
    stateOf (processInvestment baseInv baseProf "2026-01-01") ≠
      (baseInv, baseProf) := by
  refine ⟨rfl, ?_, ?_⟩
  · norm_num [processInvestment, baseInv, basePlan, baseProf, coerceDays,
      parseRoiPercent]
  · intro h
    have hw : (processInvestment baseInv baseProf "2026-01-01").prof.walletBalance = baseProf.walletBalance := by
      rw [show (processInvestment baseInv baseProf "2026-01-01").prof = (stateOf (processInvestment baseInv baseProf "2026-01-01")).2 from rfl, h]
    rw [show baseProf.walletBalance = 0 from rfl] at hw
    norm_num [processInvestment, baseInv, basePlan, baseProf, coerceDays,
      parseRoiPercent] at hw

/-- Claim C7 (amended): when a plan's stored day counter is a whole number
`n ≤ 7` and the profile mirror is `≤ 7` before the pass, both stay `≤ 7`
after the pass; and the processor only increments the counter when its
coerced value is strictly below 7 — a coerced value of at least 7 leaves the
stored counter untouched.  (The original claim fails for fractional or
already-exceeding stored values, which the processor does not clamp.) -/
theorem roi_days_bound (inv : InvRecord) (prof : UserProfile)
    (today : String) (p : Plan) (n : ℕ)
    (h1 : inv.activePlan = some p)
    (h2 : p.daysCompleted = NumField.num (n : ℚ))
    (h3 : n ≤ 7)
    (h4 : prof.currentPlanDaysCompleted ≤ 7) :
    ∃ p', (processInvestment inv prof today).inv.activePlan = some p' ∧
      (∃ m : ℚ, p'.daysCompleted = NumField.num m ∧ m ≤ 7) ∧
      (processInvestment inv prof today).prof.currentPlanDaysCompleted ≤ 7 ∧
      (7 ≤ (n : ℚ) → p'.daysCompleted = p.daysCompleted) := by
  have h7 : ((n : ℚ)) ≤ 7 := by exact_mod_cast h3
  cases hu : inv.userId with
  | none =>
    exact ⟨p, by simp [processInvestment, hu, h1], ⟨(n : ℚ), h2, h7⟩,
      by simp [processInvestment, hu, h4], fun _ => rfl⟩
  | some u =>
    by_cases hg : inv.hasActivePlan = false ∨ p.isActive = false
    · have := processInvestment_skip inv prof today u p hu h1 hg
      rw [this]
      exact ⟨p, h1, ⟨(n : ℚ), h2, h7⟩, h4, fun _ => rfl⟩
    · have ha : inv.hasActivePlan = true := by
        cases hx : inv.hasActivePlan
        · exact absurd (Or.inl hx) hg
        · rfl
      have hi : p.isActive = true := by
        cases hx : p.isActive
        · exact absurd (Or.inr hx) hg
        · rfl
      by_cases hn : (n : ℚ) < 7
      · have hn7 : n < 7 := by exact_mod_cast hn
        have hsucc : ((n : ℚ)) + 1 ≤ 7 := by
          have hx : n + 1 ≤ 7 := hn7
          exact_mod_cast hx
        by_cases hb : 7 ≤ (n : ℚ) + 1
        · by_cases hr : p.action = some "restart"
          · refine ⟨{ p with daysCompleted := .num 0, status := "active", isActive := true, action := some "active" }, ?_, ⟨0, rfl, by norm_num⟩, ?_, ?_⟩
            · simp [processInvestment, hu, h1, ha, hi, h2, coerceDays, hn,
                hb, hr]
            · simp [processInvestment, hu, h1, ha, hi, h2, coerceDays, hn,
                hb, hr]
            · intro hc; exact absurd hc (not_le.2 hn)
          · refine ⟨{ p with daysCompleted := .num ((n : ℚ) + 1), isActive := false, status := "completed" }, ?_, ⟨(n : ℚ) + 1, rfl, by linarith⟩, ?_, ?_⟩
            · simp [processInvestment, hu, h1, ha, hi, h2, coerceDays, hn,
                hb, hr, incr1]
            · simp [processInvestment, hu, h1, ha, hi, h2, coerceDays, hn,
                hb, hr]
              linarith
            · intro hc; exact absurd hc (not_le.2 hn)
        · refine ⟨{ p with daysCompleted := .num ((n : ℚ) + 1) }, ?_, ⟨(n : ℚ) + 1, rfl, by linarith⟩, ?_, ?_⟩
          · simp [processInvestment, hu, h1, ha, hi, h2, coerceDays, hn, hb,
              incr1]
          · simp [processInvestment, hu, h1, ha, hi, h2, coerceDays, hn, hb]
            linarith
          · intro hc; exact absurd hc (not_le.2 hn)
      · refine ⟨{ p with isActive := false, status := "completed" }, ?_, ⟨(n : ℚ), h2, h7⟩, ?_, fun _ => rfl⟩
        · simp [processInvestment, hu, h1, ha, hi, h2, coerceDays, hn]
        · simp [processInvestment, hu, h1, ha, hi, h2, coerceDays, hn, h7]

/-- Witness for `roi_days_bound` at the concrete boundary record `invD6`
(stored day counter 6). -/
theorem roi_days_bound_witness :
    invD6.activePlan = some planD6 ∧
    planD6.daysCompleted = NumField.num ((6 : ℕ) : ℚ) ∧ (6 : ℕ) ≤ 7 ∧
    baseProf.currentPlanDaysCompleted ≤ 7 ∧
    (∃ p', (processInvestment invD6 baseProf "2026-01-01").inv.activePlan
        = some p' ∧
      (∃ m : ℚ, p'.daysCompleted = NumField.num m ∧ m ≤ 7) ∧
      (processInvestment invD6 baseProf "2026-01-01").prof.currentPlanDaysCompleted ≤ 7 ∧
      (7 ≤ ((6 : ℕ) : ℚ) → p'.daysCompleted = planD6.daysCompleted)) :=
  ⟨rfl, by norm_num [planD6, basePlan], by norm_num,
    by norm_num [baseProf],
    roi_days_bound invD6 baseProf "2026-01-01" planD6 6 rfl
      (by norm_num [planD6, basePlan]) (by norm_num)
      (by norm_num [baseProf])⟩

/-- Counterexample to claim C7 as stated: the record `invDHalf` stores the
fractional day counter `6.5`.  Its coerced value is below 7, so the pass
pays and increments: the persisted plan counter becomes `7.5 > 7` and the
profile mirror becomes `7.5 > 7`, contradicting the claim that the persisted
counter never exceeds 7. -/
theorem roi_days_bound_counterexample :
    (processInvestment invDHalf baseProf "2026-01-01").inv.activePlan =
      some { planDHalf with daysCompleted := NumField.num (15/2), isActive := false, status := "completed" } ∧
    (processInvestment invDHalf baseProf "2026-01-01").prof.currentPlanDaysCompleted = 15/2 ∧
    ¬ ((15 : ℚ)/2 ≤ 7) := by
  refine ⟨?_, ?_, by norm_num⟩ <;>
    · simp [processInvestment, invDHalf, baseInv, planDHalf, basePlan,
        baseProf, coerceDays, parseRoiPercent, incr1]
      norm_num

/-- Each pass appends zero or one payout-log entries: exactly one when the
payout branch ran, none otherwise. -/
theorem processInvestment_log (inv : InvRecord) (prof : UserProfile)
    (today : String) :
    ∃ tl, (processInvestment inv prof today).inv.payoutLogs =
        inv.payoutLogs ++ tl ∧
      tl.length =
        (if (processInvestment inv prof today).paid then 1 else 0) := by
  cases hu : inv.userId with
  | none => exact ⟨[], by simp [processInvestment, hu], by simp [processInvestment, hu]⟩
  | some u =>
    cases hp : inv.activePlan with
    | none => exact ⟨[], by simp [processInvestment, hu, hp], by simp [processInvestment, hu, hp]⟩
    | some p =>
      by_cases hg : inv.hasActivePlan = false ∨ p.isActive = false
      · rw [processInvestment_skip inv prof today u p hu hp hg]
        exact ⟨[], by simp, rfl⟩
      · have ha : inv.hasActivePlan = true := by
          cases hx : inv.hasActivePlan
          · exact absurd (Or.inl hx) hg
          · rfl
        have hi : p.isActive = true := by
          cases hx : p.isActive
          · exact absurd (Or.inr hx) hg
          · rfl
        by_cases hd : coerceDays p.daysCompleted < 7
        · by_cases hb : 7 ≤ coerceDays p.daysCompleted + 1
          · by_cases hr : p.action = some "restart"
            · exact ⟨[⟨today, p.amount * (parseRoiPercent p.roiPercent).getD 0, "paid"⟩],
                by simp [processInvestment, hu, hp, ha, hi, hd, hb, hr],
                by simp [processInvestment, hu, hp, ha, hi, hd, hb, hr]⟩
            · exact ⟨[⟨today, p.amount * (parseRoiPercent p.roiPercent).getD 0, "paid"⟩],
                by simp [processInvestment, hu, hp, ha, hi, hd, hb, hr],
                by simp [processInvestment, hu, hp, ha, hi, hd, hb, hr]⟩
          · exact ⟨[⟨today, p.amount * (parseRoiPercent p.roiPercent).getD 0, "paid"⟩],
              by simp [processInvestment, hu, hp, ha, hi, hd, hb],
              by simp [processInvestment, hu, hp, ha, hi, hd, hb]⟩
        · exact ⟨[], by simp [processInvestment, hu, hp, ha, hi, hd],
            by simp [processInvestment, hu, hp, ha, hi, hd]⟩

/-- Claim C8: over any sequence of processor runs on a record, the payout
log only grows by appending — the prior log is always a prefix — and its
length grows by exactly the number of payouts applied, so a log that starts
empty always has length equal to the total number of payouts ever applied.
The log is never truncated or rewritten. -/
theorem roi_payout_log_length (s : InvRecord × UserProfile)
    (ts : List String) :
    ∃ tl, (runSeq s ts).1.payoutLogs = s.1.payoutLogs ++ tl ∧
      tl.length = paidCount s ts := by
  induction ts generalizing s with
  | nil => exact ⟨[], by simp [runSeq], by simp [paidCount]⟩
  | cons t ts ih =>
    obtain ⟨tl0, e0, l0⟩ := processInvestment_log s.1 s.2 t
    obtain ⟨tl1, e1, l1⟩ := ih (stateOf (processInvestment s.1 s.2 t))
    refine ⟨tl0 ++ tl1, ?_, ?_⟩
    · rw [runSeq, e1]
      show (processInvestment s.1 s.2 t).inv.payoutLogs ++ tl1 = _
      rw [e0, List.append_assoc]
    · rw [List.length_append, l0, l1, paidCount]

/-- If the recorded last update of a user is within the gated window of
`now` (index.js line 122), the per-user step is a no-op: every earlier guard
also returns the user unchanged, and an otherwise-eligible user is stopped
by the time gate before any state is written. -/
theorem dailyROIStep_skip_recent (plans : String → Option GPlan)
    (v : GUser) (t2 tp : ℤ)
    (h1 : v.lastROIUpdateDate = some tp) (h2 : t2 - tp < gateMs) :
    dailyROIStep plans v t2 = v := by
  unfold dailyROIStep
  repeat' split <;> try rfl
  all_goals (exfalso; simp_all [Option.orElse]; try omega)

/-- Claim C6: in the time-gated variant, invoking the processor twice within
the same gated window (the second call less than 24 hours minus the 5-minute
buffer after the recorded last payout) leaves the user unchanged after the
second invocation — in particular the day counter `roiIncreaseDayCount` is
unchanged and no payout is applied by the second run. -/
theorem roi_time_gate_idempotent (plans : String → Option GPlan)
    (u : GUser) (t1 t2 tp : ℤ)
    (h1 : (dailyROIStep plans u t1).lastROIUpdateDate = some tp)
    (h2 : t2 - tp < gateMs) :
    dailyROIStep plans (dailyROIStep plans u t1) t2 =
      dailyROIStep plans u t1 ∧
    (dailyROIStep plans (dailyROIStep plans u t1) t2).roiIncreaseDayCount =
      (dailyROIStep plans u t1).roiIncreaseDayCount := by
  have h := dailyROIStep_skip_recent plans (dailyROIStep plans u t1) t2 tp h1 h2
  exact ⟨h, by rw [h]⟩

/-- Witness for `roi_time_gate_idempotent`: `baseGUser` is paid at
`t1 = oneDayMs` (its recorded last update becomes `t1`), and a second
invocation 1000 ms later is within the gated window and changes nothing. -/
theorem roi_time_gate_idempotent_witness :
    (dailyROIStep plansFour baseGUser oneDayMs).lastROIUpdateDate =
      some oneDayMs ∧
    oneDayMs + 1000 - oneDayMs < gateMs ∧
    dailyROIStep plansFour (dailyROIStep plansFour baseGUser oneDayMs)
        (oneDayMs + 1000) =
      dailyROIStep plansFour baseGUser oneDayMs :=
  ⟨by norm_num [dailyROIStep, plansFour, baseGUser, oneDayMs, gateMs,
      Option.orElse],
   by norm_num [gateMs, oneDayMs],
   (roi_time_gate_idempotent plansFour baseGUser oneDayMs
      (oneDayMs + 1000) oneDayMs
      (by norm_num [dailyROIStep, plansFour, baseGUser, oneDayMs, gateMs,
        Option.orElse])
      (by norm_num [gateMs, oneDayMs])).1⟩

/-- Rounding to two decimals is monotone. -/
theorem roundTo2_mono {a b : ℚ} (h : a ≤ b) : roundTo2 a ≤ roundTo2 b := by
  unfold roundTo2
  have hr : round (a * 100) ≤ round (b * 100) := by
    rw [round_eq, round_eq]
    exact Int.floor_le_floor (by linarith)
  have hc : ((round (a * 100) : ℤ) : ℚ) ≤ ((round (b * 100) : ℤ) : ℚ) :=
    Int.cast_le.2 hr
  linarith

/-- Claim C10 (amended): in the time-gated variant, the persisted
`currentROI` after an accrual step is at most `roundTo2 (7 * dailyROI)` —
the clamp to `7 * dailyROI` (index.js lines 150-153) is applied before the
2-decimal rounding of the persisted value, even when the stored pre-state
already exceeded the cap.  (Because the rounding comes after the clamp, the
persisted value can exceed the raw cap `7 * dailyROI` itself by up to half a
cent, which refutes the claim as originally stated.) -/
theorem roi_cap_rounded (plans : String → Option GPlan) (u : GUser)
    (now tp : ℤ) (pid : String) (P : GPlan) (d : ℚ)
    (h1 : u.earningStatus = "active")
    (h2 : 0 < u.initialInvestmentAmount)
    (h3 : u.investmentPlanId = some pid)
    (h4 : plans pid = some P) (h5 : P.dailyROI = some d)
    (h6 : u.lastROIUpdateDate.orElse (fun _ => u.roiStartDate) = some tp)
    (h7 : gateMs ≤ now - tp)
    (h8 : u.roiIncreaseDayCount < 7) :
    (dailyROIStep plans u now).currentROI ≤ roundTo2 (7 * d) := by
  have hne : ¬ u.earningStatus ≠ "active" := by simp [h1]
  have hle : ¬ u.initialInvestmentAmount ≤ 0 := not_le.2 h2
  have hgate : ¬ now - tp < gateMs := not_lt.2 h7
  have hcnt : ¬ u.roiIncreaseDayCount ≥ 7 := not_le.2 h8
  simp only [dailyROIStep, hne, if_false, hle, h3, h4, h5, Option.bind,
    h6, hgate, hcnt]
  by_cases hc : u.currentROI + d > 7 * d
  · simp only [hc, if_true]
    exact le_refl _
  · simp only [hc, if_false]
    exact roundTo2_mono (by linarith [not_lt.1 hc])

/-- Witness for `roi_cap_rounded`: a user whose stored `currentROI = 100`
already exceeds the cap `28` of the 4-points-per-day plan; after the accrual
step the persisted value is clamped and stays at most `roundTo2 28`. -/
theorem roi_cap_rounded_witness :
    gUserBig.earningStatus = "active" ∧
    (0 : ℚ) < gUserBig.initialInvestmentAmount ∧
    gUserBig.investmentPlanId = some "p" ∧
    plansFour "p" = some ⟨some 4⟩ ∧
    gUserBig.lastROIUpdateDate.orElse (fun _ => gUserBig.roiStartDate) =
      some 0 ∧
    gateMs ≤ oneDayMs - 0 ∧ gUserBig.roiIncreaseDayCount < 7 ∧
    (dailyROIStep plansFour gUserBig oneDayMs).currentROI ≤
      roundTo2 (7 * 4) :=
  ⟨rfl, by norm_num [gUserBig, baseGUser], rfl, by norm_num [plansFour],
   by norm_num [gUserBig, baseGUser, Option.orElse],
   by norm_num [gateMs, oneDayMs], by norm_num [gUserBig, baseGUser],
   roi_cap_rounded plansFour gUserBig oneDayMs 0 "p" ⟨some 4⟩ 4 rfl
     (by norm_num [gUserBig, baseGUser]) rfl (by norm_num [plansFour]) rfl
     (by norm_num [gUserBig, baseGUser, Option.orElse])
     (by norm_num [gateMs, oneDayMs]) (by norm_num [gUserBig, baseGUser])⟩

/-- Counterexample to claim C10 as stated: with a plan paying
`dailyROI = 0.001` per day the cap is `7 × 0.001 = 0.007`, but the persisted
`currentROI` is the 2-decimal rounding of the clamped value, `0.01`, which
EXCEEDS `7 × dailyROI` — the persisted value is not bounded by the raw cap. -/
theorem roi_cap_counterexample :
    (dailyROIStep plansSmall gUserOver (2 * oneDayMs)).currentROI =
      1/100 ∧
    ¬ ((dailyROIStep plansSmall gUserOver (2 * oneDayMs)).currentROI ≤
        7 * (1/1000)) := by
  constructor <;>
    · simp [dailyROIStep, plansSmall, gUserOver, baseGUser, oneDayMs,
        gateMs, Option.orElse, roundTo2, round_eq]
      norm_num
